import Mathlib

/-!
Verification of the sovereignty filtering layer of gander-social/indigo.

The Go sources are embedded shallowly: pure functions become Lean functions,
mutation of a filter's cache becomes explicit state passing (each operation
returns the updated filter state), Go maps become association lists where the
most recent write shadows earlier entries (which matches `m[k] = v` map
assignment observationally through lookup), and `nil` pointers become
`Option`.
-/

/-! ## String helpers

`strContains s sub` models Go `strings.Contains(s, sub)` on the character
sequence of the string; `strToLower` / `strToUpper` model `strings.ToLower` /
`strings.ToUpper` on the ASCII range (the keyword list and country codes the
program compares against are all ASCII). -/

/-- `listStartsWith hay needle` is true when `needle` is an initial segment of `hay`. -/
def listStartsWith : List Char → List Char → Bool
  | _, [] => true
  | [], _ :: _ => false
  | c :: cs, d :: ds => c == d && listStartsWith cs ds

/-- `listContainsSub hay needle`: `needle` occurs contiguously inside `hay`. -/
def listContainsSub (hay needle : List Char) : Bool :=
  match hay with
  | [] => listStartsWith [] needle
  | _ :: rest => listStartsWith hay needle || listContainsSub rest needle

/-- Go `strings.Contains(s, sub)`. -/
def strContains (s sub : String) : Bool :=
  listContainsSub s.data sub.data

/-- ASCII lower-casing of one character (Go `unicode.ToLower` on ASCII). -/
def charToLower (c : Char) : Char :=
  if 65 ≤ c.toNat ∧ c.toNat ≤ 90 then Char.ofNat (c.toNat + 32) else c

/-- ASCII upper-casing of one character. -/
def charToUpper (c : Char) : Char :=
  if 97 ≤ c.toNat ∧ c.toNat ≤ 122 then Char.ofNat (c.toNat - 32) else c

/-- Go `strings.ToLower` restricted to the ASCII range. -/
def strToLower (s : String) : String :=
  String.mk (s.data.map charToLower)

/-- Go `strings.ToUpper` restricted to the ASCII range. -/
def strToUpper (s : String) : String :=
  String.mk (s.data.map charToUpper)

/-! ## Event model (`events.XRPCStreamEvent` and its payloads)

Only the fields the filtering layer reads are modelled. -/

/-- `comatproto.SyncSubscribeRepos_Commit` (fields read by the filter layer). -/
structure SyncSubscribeRepos_Commit where
  Repo : String
  Seq : Int
deriving DecidableEq, Repr

/-- `comatproto.SyncSubscribeRepos_Identity`. -/
structure SyncSubscribeRepos_Identity where
  Did : String
  Seq : Int
deriving DecidableEq, Repr

/-- `comatproto.SyncSubscribeRepos_Account`. -/
structure SyncSubscribeRepos_Account where
  Did : String
  Seq : Int
  Active : Bool
deriving DecidableEq, Repr

/-- `comatproto.SyncSubscribeRepos_Sync`. -/
structure SyncSubscribeRepos_Sync where
  Repo : String
  Seq : Int
deriving DecidableEq, Repr

/-- `events.XRPCStreamEvent`: at most one payload pointer is non-nil in
practice, modelled as four independent `Option` fields exactly as the Go
struct holds four pointers. -/
structure XRPCStreamEvent where
  RepoCommit : Option SyncSubscribeRepos_Commit := none
  RepoIdentity : Option SyncSubscribeRepos_Identity := none
  RepoAccount : Option SyncSubscribeRepos_Account := none
  RepoSync : Option SyncSubscribeRepos_Sync := none
deriving DecidableEq, Repr

/-! ## Geographic filter (`bgs/geographic_filter.go`) -/

/-- Association-list map with Go map lookup semantics: the most recent
write (list head) wins. -/
def mapLookup (k : String) : List (String × Bool) → Option Bool
  | [] => none
  | (k2, v) :: rest => if k2 == k then some v else mapLookup k rest

/-- `CanadianGeographicFilter`: the mutable state is `cache` and `knownDIDs`
(the `ttl` field is never read by any decision path and is omitted). -/
structure CanadianGeographicFilter where
  cache : List (String × Bool)
  knownDIDs : List (String × Bool)
deriving DecidableEq, Repr

/-- `NewCanadianGeographicFilter`: empty cache and override registry. -/
def NewCanadianGeographicFilter : CanadianGeographicFilter :=
  { cache := [], knownDIDs := [] }

/-- `setCached`: `f.cache[did] = value`. -/
def setCached (f : CanadianGeographicFilter) (did : String) (value : Bool) :
    CanadianGeographicFilter :=
  { f with cache := (did, value) :: f.cache }

/-- `AddCanadianDID`: `f.knownDIDs[did] = true; f.cache[did] = true`. -/
def AddCanadianDID (f : CanadianGeographicFilter) (did : String) :
    CanadianGeographicFilter :=
  { cache := (did, true) :: f.cache, knownDIDs := (did, true) :: f.knownDIDs }

/-- The fixed keyword list of `isLikelyCanadian`. -/
def canadianKeywords : List String :=
  ["canadian", "canada", "toronto", "vancouver", "montreal",
   "calgary", "ottawa", "edmonton", "winnipeg", "quebec",
   "halifax", "victoria", "saskatoon", "regina", "fredericton"]

/-- `isLikelyCanadian`: cache lookup, then override registry, then the keyword
heuristic; misses store the computed value in the cache. Returns the decision
together with the updated filter state. -/
def isLikelyCanadian (f : CanadianGeographicFilter) (did : String) :
    Bool × CanadianGeographicFilter :=
  match mapLookup did f.cache with
  | some cached => (cached, f)
  | none =>
    match mapLookup did f.knownDIDs with
    | some known => (known, setCached f did known)
    | none =>
      if canadianKeywords.any (fun keyword => strContains (strToLower did) keyword) then
        (true, setCached f did true)
      else
        (false, setCached f did false)

/-- The subject-identifier extraction switch of `ShouldIncludeInSovereignFeed`:
first non-nil payload in source order, `none` when no recognized kind carries
a subject. -/
def extractRepo (event : XRPCStreamEvent) : Option String :=
  match event.RepoCommit with
  | some c => some c.Repo
  | none =>
    match event.RepoIdentity with
    | some i => some i.Did
    | none =>
      match event.RepoAccount with
      | some a => some a.Did
      | none =>
        match event.RepoSync with
        | some s => some s.Repo
        | none => none

/-- `ShouldIncludeInSovereignFeed`: nil event or no extractable subject is
`false`; otherwise classify the subject. The `*events.XRPCStreamEvent`
pointer argument is `Option XRPCStreamEvent`. -/
def ShouldIncludeInSovereignFeed (f : CanadianGeographicFilter)
    (event : Option XRPCStreamEvent) : Bool × CanadianGeographicFilter :=
  match event with
  | none => (false, f)
  | some e =>
    match extractRepo e with
    | none => (false, f)
    | some repo => isLikelyCanadian f repo

/-- Modelled from the spec: `BGS.sovereignEventFilter` (the per-event filter
decision `Decide`) is called by `bgs/sovereignty_integration_test.go` but its
implementation file is not among the sources. Spec §4.3: with no classifier
attached the decision is `false` unconditionally; otherwise it delegates to
`ShouldInclude` (metrics recording has no effect on the decision and is not
modelled). -/
def sovereignEventFilter (geographicFilter : Option CanadianGeographicFilter)
    (event : Option XRPCStreamEvent) : Bool × Option CanadianGeographicFilter :=
  match geographicFilter with
  | none => (false, none)
  | some f =>
    let r := ShouldIncludeInSovereignFeed f event
    (r.1, some r.2)

/-! ## Operation sequences over one filter

A filter instance is driven by exactly two state-changing operations: an
inclusion query (`isLikelyCanadian`, reached through
`ShouldIncludeInSovereignFeed`) and the override write `AddCanadianDID`.
Sequencing them lets the persistence claims quantify over every interleaving
of subsequent calls. -/

/-- One call into a `CanadianGeographicFilter`. -/
inductive FilterOp where
  | query (did : String)
  | addDID (did : String)
deriving DecidableEq, Repr

/-- State effect of one call. -/
def applyOp (f : CanadianGeographicFilter) : FilterOp → CanadianGeographicFilter
  | .query did => (isLikelyCanadian f did).2
  | .addDID did => AddCanadianDID f did

/-- State effect of a call sequence, oldest first. -/
def applyOps (f : CanadianGeographicFilter) (ops : List FilterOp) :
    CanadianGeographicFilter :=
  ops.foldl applyOp f

/-- Whether a call writes an override entry for `did` (`AddCanadianDID` is the
only override write in the source; it always writes `true`). -/
def opWritesDID (did : String) : FilterOp → Bool
  | .query _ => false
  | .addDID d => d == did

/-! ## Sovereign configuration (`SovereignConfig.Validate`,
from the implementation given in `BuildDocs/canadian_firehose_tdd_plan.md`) -/

/-- `SovereignConfig`. -/
structure SovereignConfig where
  Enabled : Bool
  CountryCode : String
  DataRetentionDays : Int
  PrivacyMode : String
deriving DecidableEq, Repr

/-- The fixed allow-list (`validCodes` in `Validate`). -/
def validCodes : List String :=
  ["CA", "US", "GB", "FR", "DE", "AU", "NZ", "JP", "KR", "IN", "BR", "MX"]

/-- `SovereignConfig.Validate`: `none` is a nil error, `some msg` the error
message returned. -/
def SovereignConfig.Validate (sc : SovereignConfig) : Option String :=
  if !sc.Enabled then
    none
  else if sc.CountryCode == "" then
    some "country code is required when sovereignty is enabled"
  else if sc.CountryCode.length ≠ 2 then
    some "country code must be 2 characters (ISO 3166-1 alpha-2)"
  else if validCodes.any (fun code => strToUpper sc.CountryCode == code) then
    none
  else
    some "invalid country code"

/-! ## Endpoint registration (`GetConfiguredEndpoints`,
from `BuildDocs/canadian_firehose_tdd_plan.md`) -/

/-- `ServiceConfig` (the two fields `GetConfiguredEndpoints` reads). -/
structure ServiceConfig where
  SovereigntyEnabled : Bool
  SovereignCountryCode : String
deriving DecidableEq, Repr

/-- `GetConfiguredEndpoints`. -/
def GetConfiguredEndpoints (config : ServiceConfig) : List String :=
  let endpoints := ["/xrpc/com.atproto.sync.subscribeRepos"]
  if config.SovereigntyEnabled && config.SovereignCountryCode == "CA" then
    endpoints ++ ["/xrpc/ca.atproto.sync.subscribeRepos"]
  else
    endpoints

/-! ## Filter results (`bgs/filter_result.go`) -/

/-- `FilterResult`. -/
structure FilterResult where
  Pass : Bool
  Reason : String
  HashOnly : Bool
deriving DecidableEq, Repr

/-- `NewFilterResult`: `HashOnly` is left at the Go zero value `false`. -/
def NewFilterResult (pass : Bool) (reason : String) : FilterResult :=
  { Pass := pass, Reason := reason, HashOnly := false }

/-- `NewHashOnlyFilterResult`. -/
def NewHashOnlyFilterResult (reason : String) : FilterResult :=
  { Pass := false, Reason := reason, HashOnly := true }

/-! ## Event conversion (`cmd/relay/types.go`) -/

/-- `bgs.StreamEvent`; `Time` is an abstract timestamp. -/
structure StreamEvent where
  Repo : String
  Kind : String
  Time : Nat
  Seq : Int
  Source : String
  Country : String
  Verified : Bool
deriving DecidableEq, Repr

/-- `ConvertXRPCToStreamEvent`: `now` stands for the `time.Now()` sample; the
remaining fields start at their Go zero values and only the commit, identity
and account branches fill them in (the source never inspects `RepoSync`). -/
def ConvertXRPCToStreamEvent (now : Nat) (xrpc : Option XRPCStreamEvent) :
    Option StreamEvent :=
  match xrpc with
  | none => none
  | some x =>
    let event : StreamEvent :=
      { Repo := "", Kind := "", Time := now, Seq := 0,
        Source := "", Country := "", Verified := false }
    let event :=
      match x.RepoCommit with
      | some c => { event with Repo := c.Repo, Kind := "commit", Seq := c.Seq }
      | none =>
        match x.RepoIdentity with
        | some i => { event with Repo := i.Did, Kind := "identity", Seq := i.Seq }
        | none =>
          match x.RepoAccount with
          | some a => { event with Repo := a.Did, Kind := "account", Seq := a.Seq }
          | none => event
    some event

/-! ## Sovereignty metrics (`bgs/sovereignty_metrics.go`)

The prometheus collectors are modelled by their registration descriptors.
Go pointer identity of the `*SovereigntyMetrics` singleton is modelled by an
allocation number stamped into the instance; the `sync.Once` gate and the
package-level instance variable become an explicit global state record. -/

/-- Name/help descriptor (prometheus `CounterOpts` / `HistogramOpts` /
`GaugeOpts`). -/
structure MetricOpts where
  name : String
  help : String
deriving DecidableEq, Repr

/-- A labelled collector vector (`CounterVec` / `HistogramVec` / `GaugeVec`). -/
structure MetricVec where
  opts : MetricOpts
  labelNames : List String
deriving DecidableEq, Repr

/-- `SovereigntyMetrics`; `allocId` models the identity of the Go pointer. -/
structure SovereigntyMetrics where
  allocId : Nat
  EventsProcessed : MetricVec
  FilterLatency : MetricVec
  ActiveConnections : MetricVec
  CanadianEventsSent : MetricOpts
  FilteredEvents : MetricOpts
deriving DecidableEq, Repr

/-- The value built inside `sovereigntyMetricsOnce.Do`. -/
def mkSovereigntyMetrics (allocId : Nat) : SovereigntyMetrics :=
  { allocId := allocId
    EventsProcessed :=
      { opts := { name := "sovereignty_events_processed_total"
                  help := "Total number of events processed by sovereignty filter" }
        labelNames := ["result", "country"] }
    FilterLatency :=
      { opts := { name := "sovereignty_filter_latency_seconds"
                  help := "Latency of geographic filtering in seconds" }
        labelNames := ["filter_type"] }
    ActiveConnections :=
      { opts := { name := "sovereignty_active_connections"
                  help := "Number of active sovereign WebSocket connections" }
        labelNames := ["endpoint"] }
    CanadianEventsSent :=
      { name := "sovereignty_canadian_events_sent_total"
        help := "Total number of Canadian events sent via sovereign firehose" }
    FilteredEvents :=
      { name := "sovereignty_filtered_events_total"
        help := "Total number of events filtered out by geographic filter" } }

/-- The package-level state: `sovereigntyMetricsInstance` together with the
`sync.Once` gate (`inst = none` iff the once-body has not run), plus the
allocator counter that hands out fresh pointer identities. -/
structure MetricsState where
  inst : Option SovereigntyMetrics
  nextAlloc : Nat
deriving DecidableEq, Repr

/-- `NewSovereigntyMetrics`: `once.Do` runs the constructor only when the
instance is absent, then the package-level instance is returned. -/
def NewSovereigntyMetrics (g : MetricsState) : SovereigntyMetrics × MetricsState :=
  match g.inst with
  | some m => (m, g)
  | none =>
    let m := mkSovereigntyMetrics g.nextAlloc
    (m, { inst := some m, nextAlloc := g.nextAlloc + 1 })

/-- `ResetSovereigntyMetricsForTesting`: discards the instance and re-arms the
once gate. -/
def ResetSovereigntyMetricsForTesting (g : MetricsState) : MetricsState :=
  { inst := none, nextAlloc := g.nextAlloc }

/-! ## Cache lemmas -/

theorem mapLookup_insert_self (m : List (String × Bool)) (k : String) (v : Bool) :
    mapLookup k ((k, v) :: m) = some v := by
  simp [mapLookup]

theorem mapLookup_insert_ne (m : List (String × Bool)) (k k2 : String) (v : Bool)
    (h : k2 ≠ k) : mapLookup k ((k2, v) :: m) = mapLookup k m := by
  simp [mapLookup, h]

/-- A cache hit returns the cached value and leaves the filter unchanged. -/
theorem isLikelyCanadian_hit (f : CanadianGeographicFilter) (did : String) (b : Bool)
    (h : mapLookup did f.cache = some b) : isLikelyCanadian f did = (b, f) := by
  unfold isLikelyCanadian
  rw [h]

/-- A query leaves the filter unchanged or prepends a cache entry for the
queried subject. -/
theorem isLikelyCanadian_state (f : CanadianGeographicFilter) (d : String) :
    (isLikelyCanadian f d).2 = f ∨ ∃ v, (isLikelyCanadian f d).2 = setCached f d v := by
  unfold isLikelyCanadian
  split
  · exact Or.inl rfl
  · split
    · exact Or.inr ⟨_, rfl⟩
    · split
      · exact Or.inr ⟨true, rfl⟩
      · exact Or.inr ⟨false, rfl⟩

/-- Queries (on any subject) preserve an existing cache entry. -/
theorem query_cache_stable (f : CanadianGeographicFilter) (d did : String) (b : Bool)
    (h : mapLookup did f.cache = some b) :
    mapLookup did ((isLikelyCanadian f d).2).cache = some b := by
  by_cases hd : d = did
  · subst hd
    rw [isLikelyCanadian_hit f d b h]
    exact h
  · rcases isLikelyCanadian_state f d with hs | ⟨v, hs⟩
    · rw [hs]; exact h
    · rw [hs]
      show mapLookup did ((d, v) :: f.cache) = some b
      rw [mapLookup_insert_ne _ _ _ _ hd]
      exact h

/-- Override writes preserve a cached `true` (they only ever write `true`). -/
theorem addDID_cache_true_stable (f : CanadianGeographicFilter) (d did : String)
    (h : mapLookup did f.cache = some true) :
    mapLookup did (AddCanadianDID f d).cache = some true := by
  by_cases hd : d = did
  · show mapLookup did ((d, true) :: f.cache) = some true
    rw [hd]
    exact mapLookup_insert_self _ _ _
  · show mapLookup did ((d, true) :: f.cache) = some true
    rw [mapLookup_insert_ne _ _ _ _ hd]
    exact h

/-- Any single call preserves a cached `true`. -/
theorem op_cache_true_stable (f : CanadianGeographicFilter) (did : String) (op : FilterOp)
    (h : mapLookup did f.cache = some true) :
    mapLookup did (applyOp f op).cache = some true := by
  cases op with
  | query d => exact query_cache_stable f d did true h
  | addDID d => exact addDID_cache_true_stable f d did h

/-- Any call sequence preserves a cached `true`. -/
theorem ops_cache_true_stable (did : String) (ops : List FilterOp) :
    ∀ f : CanadianGeographicFilter, mapLookup did f.cache = some true →
      mapLookup did (applyOps f ops).cache = some true := by
  induction ops with
  | nil => intro f h; exact h
  | cons op rest ih =>
    intro f h
    exact ih (applyOp f op) (op_cache_true_stable f did op h)

/-- A single call that does not write an override for `did` preserves `did`'s
cache entry exactly. -/
theorem op_cache_stable_nowrite (f : CanadianGeographicFilter) (did : String) (b : Bool)
    (op : FilterOp) (h : mapLookup did f.cache = some b)
    (hw : opWritesDID did op = false) :
    mapLookup did (applyOp f op).cache = some b := by
  cases op with
  | query d => exact query_cache_stable f d did b h
  | addDID d =>
    have hd : d ≠ did := by
      intro hdd
      rw [hdd] at hw
      simp [opWritesDID] at hw
    show mapLookup did ((d, true) :: f.cache) = some b
    rw [mapLookup_insert_ne _ _ _ _ hd]
    exact h

/-- A call sequence with no override write for `did` preserves `did`'s cache
entry exactly. -/
theorem ops_cache_stable_nowrite (did : String) (b : Bool) (ops : List FilterOp) :
    ∀ f : CanadianGeographicFilter, mapLookup did f.cache = some b →
      (∀ op ∈ ops, opWritesDID did op = false) →
      mapLookup did (applyOps f ops).cache = some b := by
  induction ops with
  | nil => intro f h _; exact h
  | cons op rest ih =>
    intro f h hw
    exact ih (applyOp f op)
      (op_cache_stable_nowrite f did b op h (hw op (List.mem_cons_self op rest)))
      (fun o ho => hw o (List.mem_cons_of_mem op ho))

/-! ## Claim theorems -/

/-- C1: a nil event, or a non-nil event in which none of the recognized kinds
(commit, identity, account, sync) carries a subject identifier, yields the
decision `false` with the filter state untouched; the function is total, so no
error can be raised. -/
theorem shouldInclude_no_subject_false (f : CanadianGeographicFilter) :
    ShouldIncludeInSovereignFeed f none = (false, f) ∧
    ∀ e : XRPCStreamEvent, e.RepoCommit = none → e.RepoIdentity = none →
      e.RepoAccount = none → e.RepoSync = none →
      ShouldIncludeInSovereignFeed f (some e) = (false, f) := by
  refine ⟨rfl, ?_⟩
  intro e h1 h2 h3 h4
  simp [ShouldIncludeInSovereignFeed, extractRepo, h1, h2, h3, h4]

theorem shouldInclude_no_subject_false_witness :
    ShouldIncludeInSovereignFeed NewCanadianGeographicFilter none =
      (false, NewCanadianGeographicFilter) ∧
    ShouldIncludeInSovereignFeed NewCanadianGeographicFilter
        (some { RepoCommit := none, RepoIdentity := none,
                RepoAccount := none, RepoSync := none }) =
      (false, NewCanadianGeographicFilter) :=
  ⟨(shouldInclude_no_subject_false NewCanadianGeographicFilter).1,
   (shouldInclude_no_subject_false NewCanadianGeographicFilter).2
     { RepoCommit := none, RepoIdentity := none, RepoAccount := none, RepoSync := none }
     rfl rfl rfl rfl⟩

/-- C2: with no classifier attached the per-event decision is `false`
unconditionally, for every event. -/
theorem sovereignEventFilter_nil_filter (event : Option XRPCStreamEvent) :
    sovereignEventFilter none event = (false, none) := rfl

/-- C3: for a subject neither cached nor in the override registry, the
decision is exactly the case-insensitive keyword-substring heuristic on the
lowercased identifier (`false` when no keyword matches), and the computed
boolean is stored in the cache under that identifier. -/
theorem isLikelyCanadian_uncached_heuristic (f : CanadianGeographicFilter) (did : String)
    (hc : mapLookup did f.cache = none) (hk : mapLookup did f.knownDIDs = none) :
    (isLikelyCanadian f did).1 =
      canadianKeywords.any (fun keyword => strContains (strToLower did) keyword) ∧
    mapLookup did ((isLikelyCanadian f did).2).cache =
      some ((isLikelyCanadian f did).1) := by
  have hstep : isLikelyCanadian f did =
      (if canadianKeywords.any (fun keyword => strContains (strToLower did) keyword) then
        (true, setCached f did true)
      else
        (false, setCached f did false)) := by
    unfold isLikelyCanadian
    rw [hc, hk]
  rw [hstep]
  split
  next hkw => exact ⟨hkw.symm, mapLookup_insert_self _ _ _⟩
  next hkw =>
    simp only [Bool.not_eq_true] at hkw
    exact ⟨hkw.symm, mapLookup_insert_self _ _ _⟩

theorem isLikelyCanadian_uncached_heuristic_witness :
    (isLikelyCanadian NewCanadianGeographicFilter "did:plc:unknown789").1 =
      canadianKeywords.any
        (fun keyword => strContains (strToLower "did:plc:unknown789") keyword) ∧
    mapLookup "did:plc:unknown789"
        ((isLikelyCanadian NewCanadianGeographicFilter "did:plc:unknown789").2).cache =
      some ((isLikelyCanadian NewCanadianGeographicFilter "did:plc:unknown789").1) :=
  isLikelyCanadian_uncached_heuristic NewCanadianGeographicFilter "did:plc:unknown789" rfl rfl

/-- C4: after `AddCanadianDID` registers a subject as included, every
subsequent inclusion query for it returns `true` — across any interleaving of
further queries and override writes, for any prior cache contents and any
keyword content of the identifier — and the cache entry stays `true`. -/
theorem addCanadianDID_overrides_persist (f : CanadianGeographicFilter)
    (did : String) (ops : List FilterOp) :
    (isLikelyCanadian (applyOps (AddCanadianDID f did) ops) did).1 = true ∧
    mapLookup did (applyOps (AddCanadianDID f did) ops).cache = some true := by
  have h0 : mapLookup did (AddCanadianDID f did).cache = some true :=
    mapLookup_insert_self _ _ _
  have h1 := ops_cache_true_stable did ops (AddCanadianDID f did) h0
  refine ⟨?_, h1⟩
  rw [isLikelyCanadian_hit _ _ _ h1]

/-- C6: once a classification for a subject is cached, every later inclusion
query with no intervening override write for that subject returns the
identical cached boolean, and the cache entry is unchanged. -/
theorem cached_classification_stable (f : CanadianGeographicFilter) (did : String)
    (b : Bool) (ops : List FilterOp)
    (h : mapLookup did f.cache = some b)
    (hw : ∀ op ∈ ops, opWritesDID did op = false) :
    (isLikelyCanadian (applyOps f ops) did).1 = b ∧
    mapLookup did (applyOps f ops).cache = some b := by
  have h1 := ops_cache_stable_nowrite did b ops f h hw
  refine ⟨?_, h1⟩
  rw [isLikelyCanadian_hit _ _ _ h1]

theorem cached_classification_stable_witness :
    (isLikelyCanadian
        (applyOps ⟨[("did:plc:unknown789", false)], []⟩ [FilterOp.query "did:plc:other"])
        "did:plc:unknown789").1 = false ∧
    mapLookup "did:plc:unknown789"
        (applyOps ⟨[("did:plc:unknown789", false)], []⟩
          [FilterOp.query "did:plc:other"]).cache = some false :=
  cached_classification_stable ⟨[("did:plc:unknown789", false)], []⟩ "did:plc:unknown789"
    false [FilterOp.query "did:plc:other"] (by decide) (by decide)

/-- C5: `Validate` errors exactly when the config is enabled and the country
code is empty, of the wrong length, or not (case-insensitively) allow-listed;
a disabled config always validates, and `"ca"`, `"CA"`, `"Ca"` validate
identically for enabled configs. -/
theorem sovereignConfig_validate_spec (sc : SovereignConfig) :
    (sc.Validate ≠ none ↔
      sc.Enabled = true ∧ (sc.CountryCode = "" ∨ sc.CountryCode.length ≠ 2 ∨
        strToUpper sc.CountryCode ∉ validCodes)) ∧
    (sc.Enabled = false → sc.Validate = none) ∧
    (∀ rd pm, SovereignConfig.Validate ⟨true, "ca", rd, pm⟩ = none ∧
      SovereignConfig.Validate ⟨true, "CA", rd, pm⟩ = none ∧
      SovereignConfig.Validate ⟨true, "Ca", rd, pm⟩ = none) := by
  refine ⟨?_, ?_, ?_⟩
  · unfold SovereignConfig.Validate
    cases hE : sc.Enabled with
    | false => simp [hE]
    | true =>
      by_cases h0 : sc.CountryCode = ""
      · simp [hE, h0]
      · by_cases h1 : sc.CountryCode.length = 2
        · by_cases h2 : strToUpper sc.CountryCode ∈ validCodes
          · have hany : validCodes.any (fun code => strToUpper sc.CountryCode == code) = true := by
              rw [List.any_eq_true]
              exact ⟨strToUpper sc.CountryCode, h2, by rw [beq_iff_eq]⟩
            simp [hE, h0, h1, h2, hany]
          · have hany : validCodes.any (fun code => strToUpper sc.CountryCode == code) = false := by
              rw [Bool.eq_false_iff]
              intro hco
              rw [List.any_eq_true] at hco
              obtain ⟨code, hmem, hbeq⟩ := hco
              rw [beq_iff_eq] at hbeq
              exact h2 (hbeq ▸ hmem)
            simp [hE, h0, h1, h2, hany]
        · simp [hE, h0, h1]
  · intro h
    unfold SovereignConfig.Validate
    simp [h]
  · intro rd pm
    have hgen : ∀ cc : String, SovereignConfig.Validate ⟨true, cc, rd, pm⟩ =
        SovereignConfig.Validate ⟨true, cc, 0, ""⟩ := fun _ => rfl
    refine ⟨?_, ?_, ?_⟩ <;> rw [hgen] <;> decide

theorem sovereignConfig_validate_witness :
    SovereignConfig.Validate ⟨true, "XX", 0, "strict"⟩ ≠ none ∧
    SovereignConfig.Validate ⟨false, "XX", 0, "strict"⟩ = none :=
  ⟨(sovereignConfig_validate_spec ⟨true, "XX", 0, "strict"⟩).1.mpr
      ⟨rfl, Or.inr (Or.inr (by decide))⟩,
   (sovereignConfig_validate_spec ⟨false, "XX", 0, "strict"⟩).2.1 rfl⟩

/-- C7: metrics construction is idempotent — a second construction returns
the instance built by the first call and leaves the global state unchanged. -/
theorem newSovereigntyMetrics_idempotent (g : MetricsState) :
    (NewSovereigntyMetrics (NewSovereigntyMetrics g).2).1 = (NewSovereigntyMetrics g).1 ∧
    (NewSovereigntyMetrics (NewSovereigntyMetrics g).2).2 = (NewSovereigntyMetrics g).2 := by
  cases h : g.inst with
  | some m => simp [NewSovereigntyMetrics, h]
  | none => simp [NewSovereigntyMetrics, h]

/-- C8 counterexample: the claim's "if and only if the enabled flag is true"
fails — for an enabled configuration with country code `"US"` the registered
endpoints do not include the sovereign path. -/
theorem getConfiguredEndpoints_iff_counterexample :
    (ServiceConfig.mk true "US").SovereigntyEnabled = true ∧
    "/xrpc/ca.atproto.sync.subscribeRepos" ∉
      GetConfiguredEndpoints (ServiceConfig.mk true "US") := by
  refine ⟨rfl, ?_⟩
  decide

/-- C8 amended: the registered endpoints always include the standard firehose
path, and include the sovereign path exactly when the configuration is enabled
AND its country code is `"CA"`. -/
theorem getConfiguredEndpoints_amended (config : ServiceConfig) :
    "/xrpc/com.atproto.sync.subscribeRepos" ∈ GetConfiguredEndpoints config ∧
    ("/xrpc/ca.atproto.sync.subscribeRepos" ∈ GetConfiguredEndpoints config ↔
      config.SovereigntyEnabled = true ∧ config.SovereignCountryCode = "CA") := by
  unfold GetConfiguredEndpoints
  constructor
  · split <;> simp
  · split
    next h =>
      rw [Bool.and_eq_true, beq_iff_eq] at h
      simp [h]
    next h =>
      have h2 : ¬(config.SovereigntyEnabled = true ∧ config.SovereignCountryCode = "CA") := by
        rw [Bool.and_eq_true, beq_iff_eq] at h
        exact h
      simp [h2]

theorem getConfiguredEndpoints_amended_witness :
    "/xrpc/com.atproto.sync.subscribeRepos" ∈ GetConfiguredEndpoints ⟨true, "CA"⟩ ∧
    "/xrpc/ca.atproto.sync.subscribeRepos" ∈ GetConfiguredEndpoints ⟨true, "CA"⟩ :=
  ⟨(getConfiguredEndpoints_amended ⟨true, "CA"⟩).1,
   (getConfiguredEndpoints_amended ⟨true, "CA"⟩).2.mpr ⟨rfl, rfl⟩⟩

/-- C9: `NewFilterResult` always leaves `HashOnly` at `false`, and
`NewHashOnlyFilterResult` always builds `Pass = false`, `HashOnly = true`, so
every constructed result satisfies `HashOnly → ¬Pass`. -/
theorem filterResult_constructors_invariant (pass : Bool) (reason : String) :
    (NewFilterResult pass reason).Pass = pass ∧
    (NewFilterResult pass reason).Reason = reason ∧
    (NewFilterResult pass reason).HashOnly = false ∧
    (NewHashOnlyFilterResult reason).Pass = false ∧
    (NewHashOnlyFilterResult reason).Reason = reason ∧
    (NewHashOnlyFilterResult reason).HashOnly = true :=
  ⟨rfl, rfl, rfl, rfl, rfl, rfl⟩

/-- C10: the conversion maps nil to nil; a non-nil event with no commit,
identity or account payload converts to the zero-valued stream event (empty
`Repo`, empty `Kind`, `Seq = 0`) regardless of its `RepoSync` payload — even
though the classifier's extraction does read the sync payload's subject. -/
theorem convertXRPC_zero_value (now : Nat) :
    ConvertXRPCToStreamEvent now none = none ∧
    ∀ x : XRPCStreamEvent, x.RepoCommit = none → x.RepoIdentity = none →
      x.RepoAccount = none →
      ConvertXRPCToStreamEvent now (some x) =
        some { Repo := "", Kind := "", Time := now, Seq := 0,
               Source := "", Country := "", Verified := false } ∧
      ∀ s, x.RepoSync = some s → extractRepo x = some s.Repo := by
  refine ⟨rfl, ?_⟩
  intro x h1 h2 h3
  constructor
  · simp [ConvertXRPCToStreamEvent, h1, h2, h3]
  · intro s hs
    simp [extractRepo, h1, h2, h3, hs]

theorem convertXRPC_zero_value_witness :
    ConvertXRPCToStreamEvent 0
        (some { RepoCommit := none, RepoIdentity := none, RepoAccount := none,
                RepoSync := some { Repo := "did:plc:sync-user", Seq := 7 } }) =
      some { Repo := "", Kind := "", Time := 0, Seq := 0,
             Source := "", Country := "", Verified := false } ∧
    extractRepo { RepoCommit := none, RepoIdentity := none, RepoAccount := none,
                  RepoSync := some { Repo := "did:plc:sync-user", Seq := 7 } } =
      some "did:plc:sync-user" :=
  ⟨((convertXRPC_zero_value 0).2 _ rfl rfl rfl).1,
   ((convertXRPC_zero_value 0).2 _ rfl rfl rfl).2 { Repo := "did:plc:sync-user", Seq := 7 } rfl⟩
